import Mathlib

/-!
Verification of the juju-restore repository: a shallow embedding in Lean 4 of
the restore orchestrator (core/restorer.go), the compatibility precheck, the
backup reader's metadata derivation (backup/*.go), the database gateway's
controller-info and dump-replay logic (db/mongo.go) and the remote command
runner (machine/commandrunner.go), together with theorems settling the
spec's claims about them.

Go slices become `List`, Go `map[string]T` becomes an association list with
update-or-append insertion (`mapSet`), fallible operations become
`Except`/`Option`, and external effects (filesystem, process execution,
database queries) are passed in as explicit values describing the outcome of
each effectful step.
-/

namespace JujuRestore

/-! ## Version numbers

Model of `version.Number` from github.com/juju/version (a dependency of the
repository): fields Major, Minor, Tag, Patch, Build.  Major/Minor/Patch/Build
are Go `int`s that are non-negative for any parseable version; we use `Nat`.
-/

/-- `version.Number` from github.com/juju/version. -/
structure Number where
  major : Nat
  minor : Nat
  tag : String
  patch : Nat
  build : Nat
deriving DecidableEq, Repr

/-- `Number.Compare` from github.com/juju/version: returns -1, 0 or 1
depending on whether `v` is less than, equal to or greater than `w`;
fields are compared in the order Major, Minor, Tag, Patch, Build.  The empty
tag marks a release, which is greater than any tagged (pre-release) version
with the same major.minor (`1.2-beta1 < 1.2.0`); two non-empty tags are
compared lexicographically.  So in the tag position `v` is below `w` exactly
when the tags differ, `v` is tagged, and `w` is a release or has a
lexicographically greater tag. -/
def compareNumber (v w : Number) : Int :=
  if v = w then 0
  else if v.major < w.major ∨
      (v.major = w.major ∧ (v.minor < w.minor ∨
        (v.minor = w.minor ∧ ((v.tag ≠ w.tag ∧ v.tag ≠ "" ∧ (w.tag = "" ∨ v.tag < w.tag)) ∨
          (v.tag = w.tag ∧ (v.patch < w.patch ∨
            (v.patch = w.patch ∧ v.build < w.build))))))) then -1
  else 1

/-- `Number.String()` from github.com/juju/version: `major.minor.patch` for
untagged versions, `major.minor-tagpatch` for tagged ones, with `.build`
appended when the build number is positive. -/
def numberString (v : Number) : String :=
  let base :=
    if v.tag = "" then s!"{v.major}.{v.minor}.{v.patch}"
    else s!"{v.major}.{v.minor}-{v.tag}{v.patch}"
  if v.build > 0 then base ++ s!".{v.build}" else base

/-- Setting `Build = 0`, as `CheckRestorable` does to both versions before
comparing them ("Disregard differences in build numbers"). -/
def stripBuild (v : Number) : Number :=
  { v with build := 0 }

/-! ## Replica set data model (core/interfaces.go) -/

/-- `core.ReplicaSetMember`. -/
structure ReplicaSetMember where
  id : Int
  name : String
  self : Bool
  healthy : Bool
  state : String
  jujuMachineID : String
deriving DecidableEq, Repr

/-- `core.ReplicaSet` (the `Name` field is irrelevant to every claim but kept
for fidelity). -/
structure ReplicaSet where
  name : String
  members : List ReplicaSetMember
deriving DecidableEq, Repr

/-- `statePrimary` constant. -/
def statePrimary : String := "PRIMARY"

/-- `stateSecondary` constant. -/
def stateSecondary : String := "SECONDARY"

/-- `ReplicaSetMember.String()`: `fmt.Sprintf("%d %q (juju machine %v)", ...)`. -/
def memberString (m : ReplicaSetMember) : String :=
  s!"{m.id} \"{m.name}\" (juju machine {m.jujuMachineID})"

/-- `core.ControllerInfo`. -/
structure ControllerInfo where
  controllerModelUUID : String
  jujuVersion : Number
  series : String
  haNodes : Int
deriving DecidableEq, Repr

/-- `core.BackupMetadata`.  `BackupCreated` (a Go `time.Time`) is modelled as
an integer timestamp. -/
structure BackupMetadata where
  formatVersion : Int
  controllerModelUUID : String
  jujuVersion : Number
  series : String
  backupCreated : Int
  hostname : String
  containsLogs : Bool
  modelCount : Int
  haNodes : Int
deriving DecidableEq, Repr

/-- `core.PrecheckResult`. -/
structure PrecheckResult where
  backupDate : Int
  controllerModelUUID : String
  backupJujuVersion : Number
  controllerJujuVersion : Number
  modelCount : Int
deriving DecidableEq, Repr

/-! ## CheckDatabaseState (core/restorer.go) -/

/-- The loop body's per-member health test: a member goes into
`unhealthyMembers` iff `!validState || !member.Healthy || member.JujuMachineID == ""`
where `validState` is state PRIMARY or SECONDARY.  This is the negation. -/
def memberHealthy (m : ReplicaSetMember) : Bool :=
  (m.state == statePrimary || m.state == stateSecondary)
    && m.healthy && m.jujuMachineID != ""

/-- The `primary` pointer computed by the loop in `CheckDatabaseState`: it is
overwritten on every member whose state is PRIMARY, so it ends up holding the
last such member (`none` when there is no PRIMARY member). -/
def lastPrimary (members : List ReplicaSetMember) : Option ReplicaSetMember :=
  members.foldl (fun acc m => if m.state == statePrimary then some m else acc) none

/-- Errors returned by `Restorer.CheckDatabaseState`. -/
inductive DBStateError where
  | unhealthyMembers (members : List ReplicaSetMember)
  | noPrimary
  | notOnPrimary (primary : ReplicaSetMember)
deriving DecidableEq, Repr

/-- Message of each `CheckDatabaseState` error (`NewUnhealthyMembersError`
from core/errors.go joins member strings with ", "). -/
def renderDBStateError : DBStateError → String
  | .unhealthyMembers ms =>
      "unhealthy replica set members: " ++ String.intercalate ", " (ms.map memberString)
  | .noPrimary => "no primary found in replica set"
  | .notOnPrimary p =>
      "not running on primary replica set member, primary is " ++ memberString p

/-- `Restorer.CheckDatabaseState` on a replica-set snapshot: collect the
unhealthy members and the last PRIMARY member, then report unhealthy members
first, then a missing primary, then a primary that is not self.  Returns
`none` on acceptance. -/
def checkDatabaseState (rs : ReplicaSet) : Option DBStateError :=
  let unhealthy := rs.members.filter (fun m => !memberHealthy m)
  if unhealthy ≠ [] then some (.unhealthyMembers unhealthy)
  else
    match lastPrimary rs.members with
    | none => some .noPrimary
    | some p => if !p.self then some (.notOnPrimary p) else none

/-- A replica set with two PRIMARY members, the second of which is `self`;
every member is healthy with a non-empty machine ID. -/
def rsTwoPrimaries : ReplicaSet :=
  { name := "juju"
    members :=
      [ { id := 1, name := "kaira-ba", self := false, healthy := true
          state := "PRIMARY", jujuMachineID := "0" }
      , { id := 2, name := "djula", self := true, healthy := true
          state := "PRIMARY", jujuMachineID := "1" } ] }

/-- C1 counterexample: `CheckDatabaseState` accepts a replica set that has
two PRIMARY members (the last of which is self), so acceptance does not
require that exactly one member is PRIMARY, contradicting the claim's
"if and only if". -/
theorem checkDatabaseState_accepts_two_primaries :
    checkDatabaseState rsTwoPrimaries = none ∧
      rsTwoPrimaries.members.countP (fun m => m.state == statePrimary) = 2 := by
  constructor <;> rfl

/-- C1 (amended): `CheckDatabaseState` accepts a replica set iff every member
has state PRIMARY or SECONDARY, is healthy and has a non-empty
`jujuMachineID`, and at least one member has state PRIMARY and the last such
member has `self = true`.  (The code does not check that the PRIMARY is
unique: the `primary` pointer just keeps the last PRIMARY member seen.) -/
theorem checkDatabaseState_accepts_iff (rs : ReplicaSet) :
    checkDatabaseState rs = none ↔
      ((∀ m ∈ rs.members, memberHealthy m = true) ∧
        ∃ p, lastPrimary rs.members = some p ∧ p.self = true) := by
  unfold checkDatabaseState
  by_cases hfilter : rs.members.filter (fun m => !memberHealthy m) = []
  · have hall : ∀ m ∈ rs.members, memberHealthy m = true := by
      intro m hm
      have := List.filter_eq_nil_iff.mp hfilter m hm
      simpa using this
    rw [if_neg (by simp [hfilter])]
    cases hp : lastPrimary rs.members with
    | none => simp [hp]
    | some p =>
      cases hself : p.self with
      | false => simp [hp, hself]
      | true =>
        simp only [hself, Bool.not_true]
        rw [if_neg (by simp)]
        exact ⟨fun _ => ⟨hall, p, rfl, hself⟩, fun _ => rfl⟩
  · have hbad : ∃ m ∈ rs.members, ¬ memberHealthy m = true := by
      rcases List.exists_mem_of_ne_nil _ hfilter with ⟨m, hm⟩
      exact ⟨m, List.mem_of_mem_filter hm, by simpa using List.of_mem_filter hm⟩
    rcases hbad with ⟨m, hm, hbad⟩
    rw [if_pos (by simpa using hfilter)]
    constructor
    · intro h; cases h
    · rintro ⟨hall, -⟩
      exact absurd (hall m hm) hbad

/-! ## CheckRestorable (core/restorer.go) -/

/-- Go's `%q` verb applied to a `Stringer` value: the rendered string wrapped
in double quotes (none of the rendered values here contain characters that
`%q` would escape). -/
def goQuote (s : String) : String := "\"" ++ s ++ "\""

/-- The errors produced by `Restorer.CheckRestorable`, in source order.
`downgradeRequired` carries the build-stripped versions (the code formats the
local `controllerVersion`/`backupVersion` variables there); every other
version-carrying error formats the original, unstripped versions. -/
inductive CheckRestorableError where
  | versionGreater (backupVersion controllerVersion : Number)
  | downgradeRequired (controllerVersion backupVersion : Number)
  | versionMismatch (backupVersion controllerVersion : Number)
  | uuidMismatch (backupUUID controllerUUID : String)
  | haMismatch (backupHA controllerHA : Int)
  | seriesMismatch (backupSeries controllerSeries : String)
deriving DecidableEq, Repr

/-- The `errors.Errorf` message of each `CheckRestorable` error. -/
def renderCheckRestorableError : CheckRestorableError → String
  | .versionGreater bv cv =>
      "backup juju version " ++ goQuote (numberString bv) ++
        " is greater than controller version " ++ goQuote (numberString cv)
  | .downgradeRequired cv bv =>
      "restoring backup would downgrade from juju " ++ goQuote (numberString cv) ++
        " to " ++ goQuote (numberString bv) ++ " - pass --allow-downgrade if this is intended"
  | .versionMismatch bv cv =>
      "juju versions don't match - backup: " ++ goQuote (numberString bv) ++
        ", controller: " ++ goQuote (numberString cv)
  | .uuidMismatch b c =>
      "controller model uuids don't match - backup: " ++ goQuote b ++
        ", controller: " ++ goQuote c
  | .haMismatch b c =>
      s!"controller HA node counts don't match - backup: {b}, controller: {c}"
  | .seriesMismatch b c =>
      "controller series don't match - backup: " ++ goQuote b ++
        ", controller: " ++ goQuote c

/-- The `PrecheckResult` built at the end of `CheckRestorable`. -/
def precheckOf (backup : BackupMetadata) (controller : ControllerInfo) : PrecheckResult :=
  { backupDate := backup.backupCreated
    controllerModelUUID := backup.controllerModelUUID
    backupJujuVersion := backup.jujuVersion
    controllerJujuVersion := controller.jujuVersion
    modelCount := backup.modelCount }

/-- The UUID, HA-node-count and series checks that `CheckRestorable` falls
through to after the version check, in source order. -/
def checkRestorableTail (backup : BackupMetadata) (controller : ControllerInfo) :
    Except CheckRestorableError PrecheckResult :=
  if backup.controllerModelUUID ≠ controller.controllerModelUUID then
    .error (.uuidMismatch backup.controllerModelUUID controller.controllerModelUUID)
  else if backup.haNodes ≠ controller.haNodes then
    .error (.haMismatch backup.haNodes controller.haNodes)
  else if backup.series ≠ controller.series then
    .error (.seriesMismatch backup.series controller.series)
  else .ok (precheckOf backup controller)

/-- `Restorer.CheckRestorable(allowDowngrade)` on a fetched backup metadata
and controller info (the `Metadata()` / `ControllerInfo()` fetch-error paths
just propagate and are not modelled).  Build numbers are zeroed before the
version comparison. -/
def checkRestorable (allowDowngrade : Bool) (backup : BackupMetadata)
    (controller : ControllerInfo) : Except CheckRestorableError PrecheckResult :=
  if allowDowngrade then
    if compareNumber (stripBuild backup.jujuVersion) (stripBuild controller.jujuVersion) = 1 then
      .error (.versionGreater backup.jujuVersion controller.jujuVersion)
    else checkRestorableTail backup controller
  else if compareNumber (stripBuild backup.jujuVersion) (stripBuild controller.jujuVersion) = -1 then
    .error (.downgradeRequired (stripBuild controller.jujuVersion) (stripBuild backup.jujuVersion))
  else if stripBuild controller.jujuVersion ≠ stripBuild backup.jujuVersion then
    .error (.versionMismatch backup.jujuVersion controller.jujuVersion)
  else checkRestorableTail backup controller

theorem compareNumber_eq_zero_iff (v w : Number) : compareNumber v w = 0 ↔ v = w := by
  unfold compareNumber
  split_ifs with h₁ h₂ <;> simp [h₁]

theorem compareNumber_ne_of_eq_neg_one {v w : Number} (h : compareNumber v w = -1) :
    v ≠ w := by
  intro he
  subst he
  simp [compareNumber] at h

theorem compareNumber_ne_of_eq_one {v w : Number} (h : compareNumber v w = 1) :
    v ≠ w := by
  intro he
  subst he
  simp [compareNumber] at h

theorem checkRestorableTail_toOption (backup : BackupMetadata) (controller : ControllerInfo) :
    (checkRestorableTail backup controller).toOption =
      (if backup.controllerModelUUID = controller.controllerModelUUID ∧
          backup.haNodes = controller.haNodes ∧ backup.series = controller.series
       then some (precheckOf backup controller) else none) := by
  unfold checkRestorableTail
  split_ifs with h₁ h₂ h₃ h₄ <;> simp_all [Except.toOption]

/-- Backup metadata for `2.8-beta5.3` as in the repository's
`TestCheckRestorableWithAllowDowngradeButUpgrading` test. -/
def backupBeta53 : BackupMetadata :=
  { formatVersion := 1, controllerModelUUID := "porridge radio"
    jujuVersion := { major := 2, minor := 8, tag := "beta", patch := 5, build := 3 }
    series := "eoan", backupCreated := 0, hostname := "h"
    containsLogs := false, modelCount := 3, haNodes := 5 }

/-- Controller info for `2.7.6`. -/
def controllerV276 : ControllerInfo :=
  { controllerModelUUID := "porridge radio"
    jujuVersion := { major := 2, minor := 7, tag := "", patch := 6, build := 0 }
    series := "eoan", haNodes := 5 }

/-- Backup metadata for `2.7.6.3` (build number 3). -/
def backupV2763 : BackupMetadata :=
  { backupBeta53 with
    jujuVersion := { major := 2, minor := 7, tag := "", patch := 6, build := 3 } }

/-- Controller info for `2.8.1`. -/
def controllerV281 : ControllerInfo :=
  { controllerV276 with
    jujuVersion := { major := 2, minor := 8, tag := "", patch := 1, build := 0 } }

/-- C2: `CheckRestorable(allowDowngrade)` succeeds, returning a
`PrecheckResult` carrying both Juju versions, iff backup and controller agree
on controller-model UUID, HA-node count and series and the version rule holds
on the build-stripped versions (equal when `allowDowngrade = false`, backup
not greater when `allowDowngrade = true`); a strictly lower backup version in
normal mode fails with the `downgradeRequired` error (whose message carries
the "pass --allow-downgrade" hint), a strictly greater backup version in
downgrade mode fails with the `versionGreater` error, and the two error
messages render exactly as claimed (shown on the concrete pairs
2.8-beta5.3 / 2.7.6 and 2.7.6.3 / 2.8.1). -/
theorem checkRestorable_spec (allowDowngrade : Bool) (backup : BackupMetadata)
    (controller : ControllerInfo) :
    ((checkRestorable allowDowngrade backup controller).toOption =
      (if backup.controllerModelUUID = controller.controllerModelUUID ∧
          backup.haNodes = controller.haNodes ∧ backup.series = controller.series ∧
          (if allowDowngrade then
            compareNumber (stripBuild backup.jujuVersion) (stripBuild controller.jujuVersion) ≠ 1
           else stripBuild backup.jujuVersion = stripBuild controller.jujuVersion)
       then some (precheckOf backup controller) else none)) ∧
    (checkRestorable false backup controller =
        .error (.downgradeRequired (stripBuild controller.jujuVersion)
          (stripBuild backup.jujuVersion)) ↔
      compareNumber (stripBuild backup.jujuVersion) (stripBuild controller.jujuVersion) = -1) ∧
    (checkRestorable true backup controller =
        .error (.versionGreater backup.jujuVersion controller.jujuVersion) ↔
      compareNumber (stripBuild backup.jujuVersion) (stripBuild controller.jujuVersion) = 1) ∧
    (checkRestorable true backupBeta53 controllerV276 =
        .error (.versionGreater backupBeta53.jujuVersion controllerV276.jujuVersion) ∧
      renderCheckRestorableError
          (.versionGreater backupBeta53.jujuVersion controllerV276.jujuVersion) =
        "backup juju version \"2.8-beta5.3\" is greater than controller version \"2.7.6\"") ∧
    (checkRestorable false backupV2763 controllerV281 =
        .error (.downgradeRequired (stripBuild controllerV281.jujuVersion)
          (stripBuild backupV2763.jujuVersion)) ∧
      renderCheckRestorableError
          (.downgradeRequired (stripBuild controllerV281.jujuVersion)
            (stripBuild backupV2763.jujuVersion)) =
        "restoring backup would downgrade from juju \"2.8.1\" to \"2.7.6\"" ++
          " - pass --allow-downgrade if this is intended") := by
  refine ⟨?_, ?_, ?_, ⟨by rfl, by rfl⟩, ⟨by rfl, by rfl⟩⟩
  · cases allowDowngrade with
    | true =>
      unfold checkRestorable
      rw [if_pos rfl]
      by_cases hcmp :
          compareNumber (stripBuild backup.jujuVersion) (stripBuild controller.jujuVersion) = 1
      · rw [if_pos hcmp]
        simp [Except.toOption, hcmp]
      · rw [if_neg hcmp, checkRestorableTail_toOption]
        simp [hcmp]
    | false =>
      unfold checkRestorable
      rw [if_neg (by simp)]
      by_cases hcmp :
          compareNumber (stripBuild backup.jujuVersion) (stripBuild controller.jujuVersion) = -1
      · rw [if_pos hcmp]
        have hne : stripBuild backup.jujuVersion ≠ stripBuild controller.jujuVersion :=
          compareNumber_ne_of_eq_neg_one hcmp
        simp [Except.toOption, hne]
      · rw [if_neg hcmp]
        by_cases heq : stripBuild controller.jujuVersion = stripBuild backup.jujuVersion
        · rw [if_neg (not_not_intro heq), checkRestorableTail_toOption]
          simp [heq.symm]
        · rw [if_pos heq]
          have hne : ¬(stripBuild backup.jujuVersion = stripBuild controller.jujuVersion) :=
            fun h => heq h.symm
          simp [Except.toOption, hne]
  · constructor
    · intro h
      by_contra hcmp
      unfold checkRestorable at h
      rw [if_neg (by simp), if_neg hcmp] at h
      by_cases heq : stripBuild controller.jujuVersion = stripBuild backup.jujuVersion
      · rw [if_neg (not_not_intro heq)] at h
        unfold checkRestorableTail at h
        split_ifs at h <;> simp at h
      · rw [if_pos heq] at h
        simp at h
    · intro hcmp
      unfold checkRestorable
      rw [if_neg (by simp), if_pos hcmp]
  · constructor
    · intro h
      by_contra hcmp
      unfold checkRestorable at h
      rw [if_pos rfl, if_neg hcmp] at h
      unfold checkRestorableTail at h
      split_ifs at h <;> simp at h
    · intro hcmp
      unfold checkRestorable
      rw [if_pos rfl, if_pos hcmp]

/-! ## Agent management (core/restorer.go, manageAgents / StopAgents / StartAgents)

Controller nodes are produced from members by the `convertToControllerNode`
factory; for the claims only two observations of a node matter, so the factory
is modelled by two functions out of the member: the node's IP and the result
of the operation run on it (`none` = nil error).  The Go `map[string]error`
result is an association list built with update-or-append insertion. -/

/-- Assignment `m[k] = v` on a Go map modelled as an association list:
replace the value of an existing key in place, or append a new entry. -/
def mapSet {α : Type} : List (String × α) → String → α → List (String × α)
  | [], k, v => [(k, v)]
  | (k', v') :: rest, k, v =>
      if k' = k then (k, v) :: rest else (k', v') :: mapSet rest k v

/-- The `primary` variable of `manageAgents`: assigned on every member with
`Self` true (so the last such member wins), nil when no member is self. -/
def lastSelf (members : List ReplicaSetMember) : Option ReplicaSetMember :=
  members.foldl (fun acc m => if m.self then some m else acc) none

/-- The `secondaries` slice of `manageAgents`: the non-self members in member
order, collected only when `all` is true. -/
def secondariesOf (all : Bool) (members : List ReplicaSetMember) :
    List ReplicaSetMember :=
  if all then members.filter (fun m => !m.self) else []

/-- `Restorer.manageAgents(all, primaryFirst, operation)`: dispatch the
operation to the primary (the self member) first or last and to the
secondaries in member order, building the `ip → error` result map.  Returns
the result map together with the dispatch order; `none` models the unguarded
nil-pointer dereference of `primary` that happens when no member has
`Self = true`. -/
def manageAgents {ε : Type} (rs : ReplicaSet) (ip : ReplicaSetMember → String)
    (op : ReplicaSetMember → Option ε) (all primaryFirst : Bool) :
    Option (List (String × Option ε) × List ReplicaSetMember) :=
  match lastSelf rs.members with
  | none => none
  | some primary =>
      let order :=
        if primaryFirst then primary :: secondariesOf all rs.members
        else secondariesOf all rs.members ++ [primary]
      some (order.foldl (fun acc m => mapSet acc (ip m) (op m)) [], order)

/-- `Restorer.StopAgents(stopSecondaries)`: agents on the primary node are
stopped last. -/
def stopAgents {ε : Type} (rs : ReplicaSet) (ip : ReplicaSetMember → String)
    (op : ReplicaSetMember → Option ε) (stopSecondaries : Bool) :
    Option (List (String × Option ε) × List ReplicaSetMember) :=
  manageAgents rs ip op stopSecondaries false

/-! ## The stabilisation wait (core/restorer.go, replicaSetStabilised) -/

/-- The retry strategy built in `replicaSetStabilised`:
`retry.LimitCount(20, retry.Exponential{Initial: 5 * time.Second, Factor: 1.6})`. -/
def retryLimitCount : Nat := 20

/-- Initial delay of the exponential retry schedule, in seconds. -/
def retryInitialDelaySeconds : Nat := 5

/-- Factor of the exponential retry schedule (1.6). -/
def retryFactor : ℚ := 8 / 5

/-- One attempt of the `checkReplicaset` closure: a fetch error or a sick
replica set is a failed attempt; a fetched replica set that passes
`CheckDatabaseState` is returned. -/
def attemptOutcome : Except String ReplicaSet → Option ReplicaSet
  | .error _ => none
  | .ok rs => if checkDatabaseState rs = none then some rs else none

/-- The retry loop of `replicaSetStabilised` over the listed attempt results:
stop at the first attempt whose fetched replica set is healthy, keeping that
snapshot; when every attempt fails, fall back to the pre-wait snapshot
(`r.replicaSet = pre`).  The loop never returns an error. -/
def stabiliseList (pre : ReplicaSet) : List (Except String ReplicaSet) → ReplicaSet
  | [] => pre
  | .error _ :: rest => stabiliseList pre rest
  | .ok rs :: rest =>
      if checkDatabaseState rs = none then rs else stabiliseList pre rest

/-- `Restorer.replicaSetStabilised`: run the retry loop over the first
`retryLimitCount` fetches of the replica-set status.  The result is the new
value of `r.replicaSet`. -/
def replicaSetStabilised (pre : ReplicaSet)
    (fetch : Nat → Except String ReplicaSet) : ReplicaSet :=
  stabiliseList pre ((List.range retryLimitCount).map fetch)

/-- `Restorer.StartAgents(startSecondaries)`: wait for the replica set to
stabilise (never an error), then start agents with the primary node first. -/
def startAgents {ε : Type} (pre : ReplicaSet) (fetch : Nat → Except String ReplicaSet)
    (ip : ReplicaSetMember → String) (op : ReplicaSetMember → Option ε)
    (startSecondaries : Bool) :
    Option (List (String × Option ε) × List ReplicaSetMember) :=
  manageAgents (replicaSetStabilised pre fetch) ip op startSecondaries true

/-! ## Restore and collectMachineErrors (core/restorer.go) -/

/-- `collectMachineErrors`: collect the non-nil error messages of the result
map's values, sort them (Go `sort.Strings`, modelled by `insertionSort` –
equal because sorted permutations of a list of strings are unique) and join
them with newlines; nil when there are no errors. -/
def collectMachineErrors (results : List (Option String)) : Option String :=
  if results.filterMap id = [] then none
  else some (String.intercalate "\n" ((results.filterMap id).insertionSort (· ≤ ·)))

/-- The outcome of `Restorer.Restore` relevant to the claims: the sequence of
`UpdateAgentVersion` invocations (node member and version argument, in
invocation order) and the returned error, if any. -/
structure RestoreOutcome where
  updateCalls : List (ReplicaSetMember × Number)
  error : Option String
deriving DecidableEq, Repr

/-- `Restorer.Restore(logPath, includeStatusHistory)` after the
`ControllerInfo()` and `Metadata()` fetches succeeded: replay the dump
(`dumpErr` is the outcome of `RestoreFromDump`), then, only when the
controller's and the backup's Juju versions differ (compared exactly,
including the build number), call `UpdateAgentVersion(metadata.JujuVersion)`
on every node, primary first, collecting the per-node errors
(`updErr m` = result of `UpdateAgentVersion` on member `m`'s node, annotated
as `updating <node>: <err>` where `nodeStr` renders the node).  `none` models
the nil dereference when no member is self. -/
def restore (controller : ControllerInfo) (metadata : BackupMetadata)
    (rs : ReplicaSet) (ip : ReplicaSetMember → String)
    (nodeStr : ReplicaSetMember → String) (updErr : ReplicaSetMember → Option String)
    (dumpErr : Option String) (dumpDir : String) : Option RestoreOutcome :=
  match dumpErr with
  | some e =>
      some { updateCalls := []
             error := some ("restoring dump from " ++ goQuote dumpDir ++ ": " ++ e) }
  | none =>
      if controller.jujuVersion ≠ metadata.jujuVersion then
        match manageAgents rs ip
            (fun m => (updErr m).map (fun e => "updating " ++ nodeStr m ++ ": " ++ e))
            true true with
        | none => none
        | some (resultMap, order) =>
            some { updateCalls := order.map (fun m => (m, metadata.jujuVersion))
                   error :=
                     (collectMachineErrors (resultMap.map (·.2))).map
                       (fun msg =>
                         "problems updating controllers to version " ++
                           goQuote (numberString metadata.jujuVersion) ++ ": " ++ msg) }
      else some { updateCalls := [], error := none }

theorem foldl_self_some (p : ReplicaSetMember → Bool) (m : ReplicaSetMember) :
    ∀ (ms : List ReplicaSetMember), (∀ x ∈ ms, p x = true → x = m) →
      ms.foldl (fun acc x => if p x then some x else acc) (some m) = some m := by
  intro ms
  induction ms with
  | nil => intro _; rfl
  | cons a t ih =>
      intro h
      by_cases ha : p a = true
      · have : a = m := h a (by simp) ha
        subst this
        simp only [List.foldl_cons, if_pos ha]
        exact ih (fun x hx => h x (by simp [hx]))
      · simp only [List.foldl_cons, if_neg ha]
        exact ih (fun x hx => h x (by simp [hx]))

theorem foldl_self_none (p : ReplicaSetMember → Bool) :
    ∀ (ms : List ReplicaSetMember), (∀ x ∈ ms, p x = false) →
      ms.foldl (fun acc x => if p x then some x else acc) none = none := by
  intro ms
  induction ms with
  | nil => intro _; rfl
  | cons a t ih =>
      intro h
      have ha : p a = false := h a (by simp)
      simp only [List.foldl_cons, ha, Bool.false_eq_true, if_false]
      exact ih (fun x hx => h x (by simp [hx]))

theorem lastSelf_eq_none_iff (ms : List ReplicaSetMember) :
    lastSelf ms = none ↔ ∀ m ∈ ms, m.self = false := by
  constructor
  · intro h m hm
    by_contra hself
    have hself : m.self = true := by
      cases hs : m.self with
      | true => rfl
      | false => exact absurd hs hself
    -- a self member forces the accumulator to become (and stay) some _
    suffices hs : ∀ (l : List ReplicaSetMember) (acc : Option ReplicaSetMember),
        (∃ x ∈ l, x.self = true) ∨ acc.isSome = true →
        (l.foldl (fun acc x => if x.self then some x else acc) acc).isSome = true by
      have := hs ms none (Or.inl ⟨m, hm, hself⟩)
      rw [lastSelf] at h
      rw [h] at this
      cases this
    intro l
    induction l with
    | nil =>
        intro acc h'
        rcases h' with h' | h'
        · rcases h' with ⟨x, hx, -⟩; cases hx
        · exact h'
    | cons a t ih =>
        intro acc h'
        by_cases ha : a.self = true
        · simp only [List.foldl_cons, if_pos ha]
          exact ih _ (Or.inr rfl)
        · simp only [List.foldl_cons, if_neg ha]
          apply ih
          rcases h' with h' | h'
          · rcases h' with ⟨x, hx, hxs⟩
            rcases List.mem_cons.mp hx with rfl | hx
            · exact absurd hxs ha
            · exact Or.inl ⟨x, hx, hxs⟩
          · exact Or.inr h'
  · intro h
    exact foldl_self_none _ ms h

theorem lastSelf_eq_of_unique {ms : List ReplicaSetMember} {m : ReplicaSetMember}
    (hm : m ∈ ms) (hself : m.self = true)
    (huniq : ∀ m' ∈ ms, m'.self = true → m' = m) :
    lastSelf ms = some m := by
  rw [lastSelf]
  induction ms with
  | nil => cases hm
  | cons a t ih =>
      by_cases ha : a.self = true
      · have : a = m := huniq a (by simp) ha
        subst this
        simp only [List.foldl_cons, if_pos ha]
        exact foldl_self_some _ a t (fun x hx hxs => huniq x (by simp [hx]) hxs)
      · simp only [List.foldl_cons, if_neg ha]
        rcases List.mem_cons.mp hm with rfl | hm'
        · exact absurd hself ha
        · exact ih hm' (fun x hx hxs => huniq x (by simp [hx]) hxs)

theorem lookup_mapSet_self {α : Type} (l : List (String × α)) (k : String) (v : α) :
    (mapSet l k v).lookup k = some v := by
  induction l with
  | nil => simp [mapSet, List.lookup]
  | cons e rest ih =>
      obtain ⟨k', v'⟩ := e
      by_cases h : k' = k
      · simp [mapSet, h, List.lookup]
      · simp only [mapSet, if_neg h]
        rw [List.lookup]
        have : (k == k') = false := by
          simp only [beq_eq_false_iff_ne, ne_eq]
          exact fun he => h he.symm
        rw [this]
        exact ih

theorem lookup_isSome_mapSet {α : Type} (l : List (String × α)) (k k' : String) (v : α)
    (h : (l.lookup k).isSome = true) : ((mapSet l k' v).lookup k).isSome = true := by
  induction l with
  | nil => simp [List.lookup] at h
  | cons e rest ih =>
      obtain ⟨ke, ve⟩ := e
      by_cases hk : ke = k'
      · subst hk
        simp only [mapSet, if_pos rfl]
        by_cases hkk : k = ke
        · subst hkk
          simp [List.lookup]
        · have hbeq : (k == ke) = false := by simp [hkk]
          simp only [List.lookup, hbeq] at h ⊢
          exact h
      · simp only [mapSet, if_neg hk]
        by_cases hkk : k = ke
        · subst hkk
          simp [List.lookup]
        · have hbeq : (k == ke) = false := by simp [hkk]
          simp only [List.lookup, hbeq] at h ⊢
          exact ih h

theorem foldl_mapSet_lookup_isSome {α : Type} (ip : ReplicaSetMember → String)
    (op : ReplicaSetMember → α) :
    ∀ (order : List ReplicaSetMember) (acc : List (String × α)) (m : ReplicaSetMember),
      (m ∈ order ∨ (acc.lookup (ip m)).isSome = true) →
      ((order.foldl (fun acc x => mapSet acc (ip x) (op x)) acc).lookup (ip m)).isSome = true := by
  intro order
  induction order with
  | nil =>
      intro acc m h
      rcases h with h | h
      · cases h
      · exact h
  | cons a t ih =>
      intro acc m h
      simp only [List.foldl_cons]
      apply ih
      rcases h with h | h
      · rcases List.mem_cons.mp h with rfl | h'
        · right
          rw [lookup_mapSet_self]
          rfl
        · exact Or.inl h'
      · exact Or.inr (lookup_isSome_mapSet _ _ _ _ h)

theorem lastSelf_eq_some_mem {ms : List ReplicaSetMember} {p : ReplicaSetMember}
    (h : lastSelf ms = some p) : p ∈ ms ∧ p.self = true := by
  rw [lastSelf] at h
  suffices hgen : ∀ (l : List ReplicaSetMember) (acc : Option ReplicaSetMember),
      l.foldl (fun acc x => if x.self then some x else acc) acc = some p →
      acc = some p ∨ (p ∈ l ∧ p.self = true) by
    rcases hgen ms none h with h' | h'
    · cases h'
    · exact h'
  intro l
  induction l with
  | nil => intro acc h'; exact Or.inl h'
  | cons a t ih =>
      intro acc h'
      simp only [List.foldl_cons] at h'
      rcases ih _ h' with h'' | h''
      · by_cases ha : a.self = true
        · rw [if_pos ha] at h''
          injection h'' with h''
          subst h''
          exact Or.inr ⟨by simp, ha⟩
        · rw [if_neg ha] at h''
          exact Or.inl h''
      · exact Or.inr ⟨by simp [h''.1], h''.2⟩

/-- C10: `manageAgents` (hence `StopAgents`/`StartAgents`) presupposes a
self member: it produces no result map exactly when no member has
`self = true` (the nil `primary` dereference), and whenever the replica set
has a unique self member, the operation is dispatched to that member (first
when `primaryFirst`, last otherwise) and its IP is a key of the result map. -/
theorem manageAgents_primary_spec {ε : Type} (rs : ReplicaSet)
    (ip : ReplicaSetMember → String) (op : ReplicaSetMember → Option ε)
    (all primaryFirst : Bool) :
    (manageAgents rs ip op all primaryFirst = none ↔ ∀ m ∈ rs.members, m.self = false) ∧
    (∀ m, m ∈ rs.members → m.self = true →
      (∀ m' ∈ rs.members, m'.self = true → m' = m) →
      ∃ resultMap order,
        manageAgents rs ip op all primaryFirst = some (resultMap, order) ∧
        m ∈ order ∧ (resultMap.lookup (ip m)).isSome = true ∧
        (primaryFirst = true → order.head? = some m) ∧
        (primaryFirst = false → order.getLast? = some m)) := by
  constructor
  · cases h : lastSelf rs.members with
    | none =>
        simp only [manageAgents, h, true_iff]
        exact (lastSelf_eq_none_iff _).mp h
    | some p =>
        simp only [manageAgents, h]
        constructor
        · intro hfalse; cases hfalse
        · intro hall
          obtain ⟨hmem, hself⟩ := lastSelf_eq_some_mem h
          rw [hall p hmem] at hself
          cases hself
  · intro m hm hself huniq
    have hlast := lastSelf_eq_of_unique hm hself huniq
    cases primaryFirst with
    | true =>
        have hma : manageAgents rs ip op all true =
            some ((m :: secondariesOf all rs.members).foldl
                    (fun acc x => mapSet acc (ip x) (op x)) [],
                  m :: secondariesOf all rs.members) := by
          simp [manageAgents, hlast]
        exact ⟨_, _, hma, by simp,
          foldl_mapSet_lookup_isSome ip op _ [] m (Or.inl (by simp)),
          fun _ => rfl, fun h => by cases h⟩
    | false =>
        have hma : manageAgents rs ip op all false =
            some ((secondariesOf all rs.members ++ [m]).foldl
                    (fun acc x => mapSet acc (ip x) (op x)) [],
                  secondariesOf all rs.members ++ [m]) := by
          simp [manageAgents, hlast]
        refine ⟨_, _, hma, by simp,
          foldl_mapSet_lookup_isSome ip op _ [] m (Or.inl (by simp)), ?_, ?_⟩
        · intro h; cases h
        · intro _; rw [List.getLast?_concat]

/-- A healthy primary member that is self (as in the repository's restorer
tests). -/
def memberPrimarySelf : ReplicaSetMember :=
  { id := 0, name := "djula", self := true, healthy := true
    state := "PRIMARY", jujuMachineID := "2" }

/-- A healthy secondary member. -/
def memberSecondary : ReplicaSetMember :=
  { id := 1, name := "cosmonauts", self := false, healthy := true
    state := "SECONDARY", jujuMachineID := "3" }

/-- A healthy two-member replica set whose primary is self. -/
def rsPrimarySecondary : ReplicaSet :=
  { name := "juju", members := [memberPrimarySelf, memberSecondary] }

theorem manageAgents_primary_spec_witness :
    ∃ resultMap order,
      manageAgents rsPrimarySecondary (fun m => m.name)
          (fun _ => (none : Option String)) true false = some (resultMap, order) ∧
      memberPrimarySelf ∈ order ∧
      (resultMap.lookup memberPrimarySelf.name).isSome = true ∧
      (false = true → order.head? = some memberPrimarySelf) ∧
      (false = false → order.getLast? = some memberPrimarySelf) :=
  (manageAgents_primary_spec rsPrimarySecondary (fun m => m.name)
      (fun _ => (none : Option String)) true false).2
    memberPrimarySelf (by decide) (by decide) (by decide)

theorem stabiliseList_eq_findSome (pre : ReplicaSet) :
    ∀ l : List (Except String ReplicaSet),
      stabiliseList pre l = (l.findSome? attemptOutcome).getD pre := by
  intro l
  induction l with
  | nil => rfl
  | cons a rest ih =>
      cases a with
      | error e =>
          simp only [stabiliseList, List.findSome?_cons, attemptOutcome]
          exact ih
      | ok rs =>
          by_cases h : checkDatabaseState rs = none
          · simp [stabiliseList, List.findSome?_cons, attemptOutcome, h]
          · simp only [stabiliseList, List.findSome?_cons, attemptOutcome, if_neg h]
            exact ih

/-- C5: the stabilisation wait of `StartAgents` looks at no more than
`retryLimitCount = 20` attempts (on the 5-second/1.6-factor exponential
schedule), never returns an error, keeps the first healthy refreshed
replica-set snapshot, falls back to the pre-wait snapshot when every attempt
fails, and `StartAgents` proceeds to manage agents on the resulting snapshot
in either case. -/
theorem replicaSetStabilised_spec (pre : ReplicaSet)
    (fetch : Nat → Except String ReplicaSet) :
    (replicaSetStabilised pre fetch =
      (((List.range retryLimitCount).map fetch).findSome? attemptOutcome).getD pre) ∧
    (∀ fetch2 : Nat → Except String ReplicaSet,
      (∀ i < retryLimitCount, fetch i = fetch2 i) →
      replicaSetStabilised pre fetch = replicaSetStabilised pre fetch2) ∧
    ((∀ i < retryLimitCount, attemptOutcome (fetch i) = none) →
      replicaSetStabilised pre fetch = pre) ∧
    (∀ rs, ((List.range retryLimitCount).map fetch).findSome? attemptOutcome = some rs →
      replicaSetStabilised pre fetch = rs) ∧
    (retryLimitCount = 20 ∧ retryInitialDelaySeconds = 5 ∧ retryFactor = 8 / 5) ∧
    (∀ (ε : Type) (ip : ReplicaSetMember → String) (op : ReplicaSetMember → Option ε)
        (startSecondaries : Bool),
      startAgents pre fetch ip op startSecondaries =
        manageAgents (replicaSetStabilised pre fetch) ip op startSecondaries true) := by
  refine ⟨stabiliseList_eq_findSome pre _, ?_, ?_, ?_, ⟨rfl, rfl, rfl⟩, fun _ _ _ _ => rfl⟩
  · intro fetch2 h
    unfold replicaSetStabilised
    congr 1
    apply List.map_congr_left
    intro i hi
    exact h i (List.mem_range.mp hi)
  · intro h
    rw [replicaSetStabilised, stabiliseList_eq_findSome]
    have : ((List.range retryLimitCount).map fetch).findSome? attemptOutcome = none := by
      rw [List.findSome?_eq_none_iff]
      intro x hx
      rcases List.mem_map.mp hx with ⟨i, hi, rfl⟩
      exact h i (List.mem_range.mp hi)
    rw [this]
    rfl
  · intro rs h
    rw [replicaSetStabilised, stabiliseList_eq_findSome, h]
    rfl

/-- A fetch that fails on the first `retryLimitCount` attempts with "boom"
and would succeed afterwards: behaviourally identical to always failing. -/
def fetchBoom : Nat → Except String ReplicaSet :=
  fun _ => .error "boom"

/-- Like `fetchBoom` on the first `retryLimitCount` attempts, healthy after. -/
def fetchBoomThenOk : Nat → Except String ReplicaSet :=
  fun i => if i < retryLimitCount then .error "boom" else .ok rsPrimarySecondary

theorem replicaSetStabilised_spec_witness :
    replicaSetStabilised rsPrimarySecondary fetchBoom =
        replicaSetStabilised rsPrimarySecondary fetchBoomThenOk ∧
      replicaSetStabilised rsPrimarySecondary fetchBoom = rsPrimarySecondary ∧
      replicaSetStabilised rsTwoPrimaries (fun _ => .ok rsPrimarySecondary) =
        rsPrimarySecondary := by
  refine ⟨?_, ?_, ?_⟩
  · exact (replicaSetStabilised_spec rsPrimarySecondary fetchBoom).2.1 fetchBoomThenOk
      (by intro i hi; simp [fetchBoom, fetchBoomThenOk, hi])
  · exact (replicaSetStabilised_spec rsPrimarySecondary fetchBoom).2.2.1
      (by intro i _; rfl)
  · exact (replicaSetStabilised_spec rsTwoPrimaries
      (fun _ => .ok rsPrimarySecondary)).2.2.2.1 rsPrimarySecondary (by decide)

theorem mapSet_append_of_not_mem {α : Type} (k : String) (v : α) :
    ∀ (acc : List (String × α)), (∀ e ∈ acc, e.1 ≠ k) →
      mapSet acc k v = acc ++ [(k, v)] := by
  intro acc
  induction acc with
  | nil => intro _; rfl
  | cons e rest ih =>
      intro h
      obtain ⟨k', v'⟩ := e
      have hk : k' ≠ k := h (k', v') (by simp)
      simp only [mapSet, if_neg hk, List.cons_append, List.cons.injEq, true_and]
      exact ih (fun e he => h e (by simp [he]))

theorem foldl_mapSet_of_nodup {α : Type} (ip : ReplicaSetMember → String)
    (op : ReplicaSetMember → α) :
    ∀ (order : List ReplicaSetMember) (acc : List (String × α)),
      (∀ x ∈ order, ∀ e ∈ acc, e.1 ≠ ip x) → (order.map ip).Nodup →
      order.foldl (fun a x => mapSet a (ip x) (op x)) acc =
        acc ++ order.map (fun x => (ip x, op x)) := by
  intro order
  induction order with
  | nil => intro acc _ _; simp
  | cons a t ih =>
      intro acc hdisj hnodup
      simp only [List.foldl_cons]
      rw [mapSet_append_of_not_mem _ _ acc (hdisj a (by simp))]
      rw [List.map_cons, List.nodup_cons] at hnodup
      rw [ih (acc ++ [(ip a, op a)]) ?_ hnodup.2]
      · simp
      · intro x hx e he
        rcases List.mem_append.mp he with he | he
        · exact hdisj x (by simp [hx]) e he
        · rcases List.mem_singleton.mp he with rfl
          intro hcontra
          have hax : ip a = ip x := hcontra
          exact hnodup.1 (hax ▸ List.mem_map_of_mem ip hx)

theorem collectMachineErrors_perm (l₁ l₂ : List (Option String)) (h : l₁.Perm l₂) :
    collectMachineErrors l₁ = collectMachineErrors l₂ := by
  have hperm : (l₁.filterMap id).Perm (l₂.filterMap id) := h.filterMap id
  by_cases h₁ : l₁.filterMap id = []
  · have h₂ : l₂.filterMap id = [] := by
      rw [h₁] at hperm
      exact hperm.symm.eq_nil
    rw [collectMachineErrors, collectMachineErrors, if_pos h₁, if_pos h₂]
  · have h₂ : l₂.filterMap id ≠ [] := by
      intro h₂
      rw [h₂] at hperm
      exact h₁ hperm.eq_nil
    rw [collectMachineErrors, collectMachineErrors, if_neg h₁, if_neg h₂]
    have hsort : (l₁.filterMap id).insertionSort (· ≤ ·) =
        (l₂.filterMap id).insertionSort (· ≤ ·) :=
      List.eq_of_perm_of_sorted
        ((List.perm_insertionSort _ _).trans
          (hperm.trans (List.perm_insertionSort _ _).symm))
        (List.sorted_insertionSort _ _) (List.sorted_insertionSort _ _)
    rw [hsort]

theorem collectMachineErrors_eq_none_iff (l : List (Option String)) :
    collectMachineErrors l = none ↔ ∀ x ∈ l, x = none := by
  by_cases h : l.filterMap id = []
  · rw [collectMachineErrors, if_pos h]
    simp only [true_iff]
    intro x hx
    exact List.filterMap_eq_nil_iff.mp h x hx
  · rw [collectMachineErrors, if_neg h]
    constructor
    · intro hfalse; cases hfalse
    · intro hall
      exact absurd (List.filterMap_eq_nil_iff.mpr (fun a ha => hall a ha)) h

theorem collectMachineErrors_sorted (l : List (Option String)) (s : String)
    (h : collectMachineErrors l = some s) :
    ∃ msgs, s = String.intercalate "\n" msgs ∧ msgs.Sorted (· ≤ ·) ∧
      msgs.Perm (l.filterMap id) := by
  by_cases hnil : l.filterMap id = []
  · rw [collectMachineErrors, if_pos hnil] at h
    cases h
  · rw [collectMachineErrors, if_neg hnil] at h
    injection h with h
    exact ⟨(l.filterMap id).insertionSort (· ≤ ·), h.symm,
      List.sorted_insertionSort _ _, List.perm_insertionSort _ _⟩

/-- Controller on `2.8.0.1` (build number 1). -/
def controllerBuildOne : ControllerInfo :=
  { controllerModelUUID := "u"
    jujuVersion := { major := 2, minor := 8, tag := "", patch := 0, build := 1 }
    series := "bionic", haNodes := 2 }

/-- Backup on `2.8.0.2` (build number 2): the same version as
`controllerBuildOne` once build suffixes are stripped. -/
def metadataBuildTwo : BackupMetadata :=
  { formatVersion := 1, controllerModelUUID := "u"
    jujuVersion := { major := 2, minor := 8, tag := "", patch := 0, build := 2 }
    series := "bionic", backupCreated := 0, hostname := "h"
    containsLogs := false, modelCount := 1, haNodes := 2 }

/-- C3 counterexample: after a successful dump replay, `Restore` invokes
`UpdateAgentVersion` on every node although the backup and controller Juju
versions agree after stripping the build suffix (they differ only in the
build number), because the code compares the versions exactly
(`controller.JujuVersion != metadata.JujuVersion`), without stripping. -/
theorem restore_updates_despite_equal_stripped_versions :
    stripBuild controllerBuildOne.jujuVersion = stripBuild metadataBuildTwo.jujuVersion ∧
    restore controllerBuildOne metadataBuildTwo rsPrimarySecondary
        (fun m => m.name) (fun m => m.name) (fun _ => none) none "dumpdir" =
      some { updateCalls := [(memberPrimarySelf, metadataBuildTwo.jujuVersion),
                             (memberSecondary, metadataBuildTwo.jujuVersion)]
             error := none } := by
  constructor <;> rfl

/-- C3 (amended): after a successful dump replay on a replica set with a
unique self member (and distinct members/IPs), `Restore` invokes
`UpdateAgentVersion(backup.jujuVersion)` on every node, primary first, iff
the backup and controller Juju versions differ *exactly* (build number
included — the code does not strip builds here); its error is the collected
per-node update errors, which `collectMachineErrors` reports
deterministically (invariant under the Go map's iteration order) as a
lexicographically sorted newline-joined message. -/
theorem restore_spec (controller : ControllerInfo) (metadata : BackupMetadata)
    (rs : ReplicaSet) (ip nodeStr : ReplicaSetMember → String)
    (updErr : ReplicaSetMember → Option String) (dumpDir : String)
    (m : ReplicaSetMember) (hm : m ∈ rs.members) (hself : m.self = true)
    (huniq : ∀ m' ∈ rs.members, m'.self = true → m' = m)
    (hnodup : rs.members.Nodup)
    (hinj : ∀ a ∈ rs.members, ∀ b ∈ rs.members, ip a = ip b → a = b) :
    (restore controller metadata rs ip nodeStr updErr none dumpDir =
      if controller.jujuVersion = metadata.jujuVersion then
        some { updateCalls := [], error := none }
      else
        some { updateCalls :=
                 (m :: rs.members.filter (fun x => !x.self)).map
                   (fun x => (x, metadata.jujuVersion))
               error :=
                 (collectMachineErrors
                     ((m :: rs.members.filter (fun x => !x.self)).map
                       (fun x => (updErr x).map
                         (fun e => "updating " ++ nodeStr x ++ ": " ++ e)))).map
                   (fun msg =>
                     "problems updating controllers to version " ++
                       goQuote (numberString metadata.jujuVersion) ++ ": " ++ msg) }) ∧
    (∀ l₁ l₂ : List (Option String), l₁.Perm l₂ →
      collectMachineErrors l₁ = collectMachineErrors l₂) ∧
    (∀ l : List (Option String), collectMachineErrors l = none ↔ ∀ x ∈ l, x = none) ∧
    (∀ (l : List (Option String)) (s : String), collectMachineErrors l = some s →
      ∃ msgs, s = String.intercalate "\n" msgs ∧ msgs.Sorted (· ≤ ·) ∧
        msgs.Perm (l.filterMap id)) := by
  refine ⟨?_, collectMachineErrors_perm, collectMachineErrors_eq_none_iff,
    collectMachineErrors_sorted⟩
  by_cases hv : controller.jujuVersion = metadata.jujuVersion
  · rw [if_pos hv]
    simp only [restore]
    rw [if_neg (not_not_intro hv)]
  · rw [if_neg hv]
    simp only [restore]
    rw [if_pos hv]
    have hlast := lastSelf_eq_of_unique hm hself huniq
    have hsec : secondariesOf true rs.members = rs.members.filter (fun x => !x.self) := rfl
    have hordermem : ∀ x ∈ m :: rs.members.filter (fun x => !x.self), x ∈ rs.members := by
      intro x hx
      rcases List.mem_cons.mp hx with rfl | hx
      · exact hm
      · exact List.mem_of_mem_filter hx
    have hordernodup : (m :: rs.members.filter (fun x => !x.self)).Nodup := by
      rw [List.nodup_cons]
      refine ⟨?_, hnodup.filter _⟩
      intro hmem
      have := List.of_mem_filter hmem
      rw [hself] at this
      cases this
    have hmapnodup : ((m :: rs.members.filter (fun x => !x.self)).map ip).Nodup :=
      hordernodup.map_on
        (fun a ha b hb hab => hinj a (hordermem a ha) b (hordermem b hb) hab)
    have hma : manageAgents rs ip
        (fun x => (updErr x).map (fun e => "updating " ++ nodeStr x ++ ": " ++ e))
        true true =
        some ((m :: rs.members.filter (fun x => !x.self)).foldl
                (fun a x => mapSet a (ip x)
                  ((updErr x).map (fun e => "updating " ++ nodeStr x ++ ": " ++ e))) [],
              m :: rs.members.filter (fun x => !x.self)) := by
      simp [manageAgents, hlast, hsec]
    rw [hma]
    rw [foldl_mapSet_of_nodup ip _ _ [] (fun x _ e he => absurd he (List.not_mem_nil e))
      hmapnodup]
    rw [List.nil_append]
    show some _ = some _
    rw [List.map_map]
    rfl

theorem restore_spec_witness :
    restore { controllerModelUUID := "u"
              jujuVersion := { major := 2, minor := 8, tag := "beta", patch := 1, build := 0 }
              series := "bionic", haNodes := 2 }
        metadataBuildTwo rsPrimarySecondary
        (fun m => m.name) (fun m => m.name) (fun _ => none) none "dumpdir" =
      if ({ controllerModelUUID := "u"
            jujuVersion := { major := 2, minor := 8, tag := "beta", patch := 1, build := 0 }
            series := "bionic", haNodes := 2 } : ControllerInfo).jujuVersion =
          metadataBuildTwo.jujuVersion then
        some { updateCalls := [], error := none }
      else
        some { updateCalls :=
                 (memberPrimarySelf ::
                     rsPrimarySecondary.members.filter (fun x => !x.self)).map
                   (fun x => (x, metadataBuildTwo.jujuVersion))
               error :=
                 (collectMachineErrors
                     ((memberPrimarySelf ::
                         rsPrimarySecondary.members.filter (fun x => !x.self)).map
                       (fun x => (none : Option String).map
                         (fun e => "updating " ++ x.name ++ ": " ++ e)))).map
                   (fun msg =>
                     "problems updating controllers to version " ++
                       goQuote (numberString metadataBuildTwo.jujuVersion) ++ ": " ++ msg) } :=
  (restore_spec _ metadataBuildTwo rsPrimarySecondary
      (fun m => m.name) (fun m => m.name) (fun _ => none) "dumpdir"
      memberPrimarySelf (by decide) (by decide) (by decide) (by decide) (by decide)).1

/-! ## RestoreFromDump (db/mongo.go)

The external effects of `database.RestoreFromDump` are described by an
environment value: which restore binaries `exec.LookPath` finds, whether the
snap-sandbox move of the dump succeeds, the tool's combined stdout+stderr and
exit status, and whether writing the log file succeeds. -/

/-- Outcomes of the effectful steps taken by `RestoreFromDump`. -/
structure RestoreDumpEnv where
  snapAvailable : Bool
  plainAvailable : Bool
  moveOk : Bool
  toolOutput : String
  toolOk : Bool
  writeOk : Bool
deriving DecidableEq, Repr

/-- What `RestoreFromDump` did: the contents written to the log file (if it
was written at all) and whether an error was returned. -/
structure RestoreDumpResult where
  logWritten : Option String
  failed : Bool
deriving DecidableEq, Repr

/-- `database.RestoreFromDump`: pick the restore binary (snap variant
preferred), move the dump under the snap home when the snap binary was
chosen, run the tool capturing combined output, and only then write the
output to the log file.  When the tool fails the function returns before the
`WriteFile` call, logging the output at debug level only. -/
def restoreFromDump (env : RestoreDumpEnv) : RestoreDumpResult :=
  if !env.snapAvailable && !env.plainAvailable then
    { logWritten := none, failed := true }
  else if env.snapAvailable && !env.moveOk then
    { logWritten := none, failed := true }
  else if !env.toolOk then
    { logWritten := none, failed := true }
  else if !env.writeOk then
    { logWritten := none, failed := true }
  else { logWritten := some env.toolOutput, failed := false }

/-- C4 counterexample: when the restore tool fails, `RestoreFromDump` returns
before the `WriteFile` call and the log file is not written, contradicting
"written to logFile ... when the tool fails". -/
theorem restoreFromDump_tool_failure_no_log :
    restoreFromDump
        { snapAvailable := false, plainAvailable := true, moveOk := true
          toolOutput := "tool output", toolOk := false, writeOk := true } =
      { logWritten := none, failed := true } := by
  rfl

/-- C4 (amended): the combined output of the restore tool reaches the log
file exactly when a restore binary was found, the snap-sandbox move (if the
snap binary was chosen) succeeded, the tool succeeded, and the write itself
succeeded; in every other case — in particular whenever the tool fails — the
log file is not written, and the call fails exactly when the log was not
written. -/
theorem restoreFromDump_log_iff (env : RestoreDumpEnv) :
    (restoreFromDump env).logWritten =
      (if (env.snapAvailable || env.plainAvailable) &&
          (!env.snapAvailable || env.moveOk) && env.toolOk && env.writeOk
       then some env.toolOutput else none) ∧
    ((restoreFromDump env).failed = !(restoreFromDump env).logWritten.isSome) := by
  obtain ⟨sa, pa, mo, out, tk, wo⟩ := env
  cases sa <;> cases pa <;> cases mo <;> cases tk <;> cases wo <;>
    simp [restoreFromDump]

/-! ## The remote command runner's RunScript (machine/commandrunner.go) -/

/-- Outcomes of the effectful steps taken by `remoteRunner.RunScript`:
creating the local temp script file, writing it, closing it, secure-copying
it to the target, and running it there. -/
structure RunScriptEnv where
  createOk : Bool
  writeOk : Bool
  closeOk : Bool
  scpOk : Bool
  runOk : Bool
deriving DecidableEq, Repr

/-- What remains after `RunScript` returns: whether the local temp script
file and the on-target copy still exist, and whether the run succeeded. -/
structure ScriptRunOutcome where
  localScriptRemains : Bool
  remoteScriptRemains : Bool
  ok : Bool
deriving DecidableEq, Repr

/-- `remoteRunner.RunScript`: create a temp script under /tmp (a deferred
`os.Remove` deletes it on every path after creation), write and close it,
`scp` it to the same path on the target, then run it there with sudo.
Nothing ever removes the on-target copy. -/
def runScript (env : RunScriptEnv) : ScriptRunOutcome :=
  if !env.createOk then
    { localScriptRemains := false, remoteScriptRemains := false, ok := false }
  else if !env.writeOk then
    { localScriptRemains := false, remoteScriptRemains := false, ok := false }
  else if !env.closeOk then
    { localScriptRemains := false, remoteScriptRemains := false, ok := false }
  else if !env.scpOk then
    { localScriptRemains := false, remoteScriptRemains := false, ok := false }
  else
    { localScriptRemains := false, remoteScriptRemains := true, ok := env.runOk }

/-- C8 counterexample: on the fully successful path the on-target copy of the
script is still present when `RunScript` returns — it is never removed —
contradicting "the copy placed on the target machine via secure-copy [is]
removed on all exit paths". -/
theorem runScript_remote_copy_remains :
    runScript { createOk := true, writeOk := true, closeOk := true
                scpOk := true, runOk := true } =
      { localScriptRemains := false, remoteScriptRemains := true, ok := true } := by
  rfl

/-- C8 (amended): the local temporary script file is removed on every exit
path (the deferred remove covers all paths after creation), but the on-target
copy persists exactly when the secure-copy was reached and succeeded: it is
never removed, whether the script run succeeds or fails. -/
theorem runScript_cleanup (env : RunScriptEnv) :
    (runScript env).localScriptRemains = false ∧
    (runScript env).remoteScriptRemains =
      (env.createOk && env.writeOk && env.closeOk && env.scpOk) := by
  obtain ⟨c, w, cl, s, r⟩ := env
  cases c <;> cases w <;> cases cl <;> cases s <;> cases r <;> simp [runScript]

/-! ## ControllerInfo's series and HA-node derivation (db/mongo.go) -/

/-- `jobManageModel` constant (integer 2). -/
def jobManageModel : Int := 2

/-- `alive` lifecycle constant (integer 0). -/
def lifeAlive : Int := 0

/-- A document of the `machines` collection, restricted to the fields
`ControllerInfo` reads. -/
structure MongoMachineDoc where
  modelUUID : String
  jobs : List Int
  life : Int
  series : String
deriving DecidableEq, Repr

/-- The mongo query of `ControllerInfo`:
`{"model-uuid": uuid, "jobs": {"$in": [jobManageModel]}, "life": alive}`. -/
def controllerMachinesQuery (uuid : String) (m : MongoMachineDoc) : Bool :=
  m.modelUUID == uuid && m.jobs.contains jobManageModel && m.life == lifeAlive

/-- The error of `ControllerInfo`'s series check. -/
inductive ControllerInfoError where
  | expectedOneSeries (names : List String)
deriving DecidableEq, Repr

/-- The iteration of `ControllerInfo` over the machines matching the query:
count them into `HANodes` and collect their series into a string set, then
require the set of distinct series (`allSeries.SortedValues()`) to have
exactly one element. -/
def controllerInfoSeriesHA (machines : List MongoMachineDoc) (uuid : String) :
    Except ControllerInfoError (Int × String) :=
  if (((machines.filter (controllerMachinesQuery uuid)).map
        (fun m => m.series)).dedup.insertionSort (· ≤ ·)).length ≠ 1 then
    .error (.expectedOneSeries (((machines.filter (controllerMachinesQuery uuid)).map
      (fun m => m.series)).dedup.insertionSort (· ≤ ·)))
  else
    .ok ((machines.filter (controllerMachinesQuery uuid)).length,
      (((machines.filter (controllerMachinesQuery uuid)).map
        (fun m => m.series)).dedup.insertionSort (· ≤ ·)).headI)

/-- C9: `ControllerInfo` fails exactly when the number of distinct series
among the alive manage-model machines of the controller model differs from
one — in particular it fails when there are no such machines at all (zero
distinct series), and on success `HANodes` is the count of those machines. -/
theorem controllerInfoSeriesHA_spec (machines : List MongoMachineDoc) (uuid : String) :
    ((controllerInfoSeriesHA machines uuid).isOk = true ↔
      ((machines.filter (controllerMachinesQuery uuid)).map
        (fun m => m.series)).dedup.length = 1) ∧
    (∀ n s, controllerInfoSeriesHA machines uuid = .ok (n, s) →
      n = (machines.filter (controllerMachinesQuery uuid)).length) ∧
    (controllerInfoSeriesHA [] uuid = .error (.expectedOneSeries [])) := by
  have hlen : ((((machines.filter (controllerMachinesQuery uuid)).map
        (fun m => m.series)).dedup).insertionSort (· ≤ ·)).length =
      (((machines.filter (controllerMachinesQuery uuid)).map
        (fun m => m.series)).dedup).length :=
    (List.perm_insertionSort _ _).length_eq
  refine ⟨?_, ?_, rfl⟩
  · by_cases h : (((machines.filter (controllerMachinesQuery uuid)).map
        (fun m => m.series)).dedup).length = 1
    · rw [controllerInfoSeriesHA, if_neg (by rw [hlen]; exact not_not_intro h)]
      simp [Except.isOk, Except.toBool, h]
    · rw [controllerInfoSeriesHA, if_pos (by rw [hlen]; exact h)]
      simp [Except.isOk, Except.toBool, h]
  · intro n s h
    by_cases hc : ((((machines.filter (controllerMachinesQuery uuid)).map
        (fun m => m.series)).dedup).insertionSort (· ≤ ·)).length = 1
    · rw [controllerInfoSeriesHA, if_neg (not_not_intro hc)] at h
      injection h with h
      exact ((Prod.mk.injEq _ _ _ _).mp h).1.symm
    · rw [controllerInfoSeriesHA, if_pos hc] at h
      cases h

theorem controllerInfoSeriesHA_spec_witness :
    (1 : Int) =
      (([ { modelUUID := "u", jobs := [2], life := 0, series := "bionic" }
        , { modelUUID := "u", jobs := [3], life := 0, series := "focal" }
        ] : List MongoMachineDoc).filter (controllerMachinesQuery "u")).length :=
  (controllerInfoSeriesHA_spec
      [ { modelUUID := "u", jobs := [2], life := 0, series := "bionic" }
      , { modelUUID := "u", jobs := [3], life := 0, series := "focal" } ] "u").2.1
    1 "bionic" (by rfl)

/-! ## Backup metadata and HA-node counting (backup/metadata.go)

A BSON dump file is either missing from the dump, structurally unreadable, or
a readable stream of (already decoded) documents; `countBsonDocs` is its
document count. -/

/-- State of one `.bson` file of the dump, with `α` the decoded document
type (for files that are only counted, `Unit`). -/
inductive BsonFile (α : Type) where
  | missing
  | unreadable
  | docs (l : List α)
deriving DecidableEq, Repr

/-- File-level errors: `os.IsNotExist` errors vs. any other read error. -/
inductive BackupFileError where
  | notExist
  | corrupt
deriving DecidableEq, Repr

/-- `countBsonDocs`: the number of BSON documents in the file. -/
def countBsonDocs {α : Type} : BsonFile α → Except BackupFileError Nat
  | .missing => .error .notExist
  | .unreadable => .error .corrupt
  | .docs l => .ok l.length

/-- A document of the dump's `machines.bson`, restricted to the fields read
by `countHANodes` (`model-uuid` and `jobs`). -/
structure MachineDoc where
  modelUUID : String
  jobs : List Int
deriving DecidableEq, Repr

/-- `countHANodes(directory, modelUUID)`: count the documents of
`controllerNodes.bson` when that file can be read; on an is-not-exist error
fall back to counting the documents of `machines.bson` whose `model-uuid`
equals the backup's controller-model UUID and whose `jobs` array contains
`jobManageModel`; any other error propagates. -/
def countHANodes (controllerNodes : BsonFile Unit) (machines : BsonFile MachineDoc)
    (modelUUID : String) : Except BackupFileError Nat :=
  match countBsonDocs controllerNodes with
  | .ok count => .ok count
  | .error e =>
      if e ≠ .notExist then .error e
      else
        match machines with
        | .missing => .error .notExist
        | .unreadable => .error .corrupt
        | .docs ms =>
            .ok (ms.filter (fun d =>
              d.modelUUID == modelUUID && d.jobs.contains jobManageModel)).length

/-- The v1 (`flatMetadata`) JSON document, restricted to the fields that
reach `core.BackupMetadata`. -/
structure FlatMetadata where
  formatVersion : Int
  modelUUID : String
  version : Number
  series : String
  started : Int
  hostname : String
  haNodes : Int
deriving DecidableEq, Repr

/-- The v0 (`flatMetadataV0`) JSON document (`Environment` carries the
controller-model UUID; no HANodes field). -/
structure FlatMetadataV0 where
  environment : String
  version : Number
  series : String
  started : Int
  hostname : String
deriving DecidableEq, Repr

/-- `flatToBackupMetadata` (ContainsLogs and ModelCount are filled in later
by `Metadata()`, so they are zero-valued here). -/
def flatToBackupMetadata (s : FlatMetadata) : BackupMetadata :=
  { formatVersion := s.formatVersion, controllerModelUUID := s.modelUUID
    jujuVersion := s.version, series := s.series, backupCreated := s.started
    hostname := s.hostname, containsLogs := false, modelCount := 0
    haNodes := s.haNodes }

/-- `flatV0ToBackupMetadata`. -/
def flatV0ToBackupMetadata (s : FlatMetadataV0) (haNodes : Int) : BackupMetadata :=
  { formatVersion := 0, controllerModelUUID := s.environment
    jujuVersion := s.version, series := s.series, backupCreated := s.started
    hostname := s.hostname, containsLogs := false, modelCount := 0
    haNodes := haNodes }

/-- Errors of `readMetadataJSON`. -/
inductive MetadataError where
  | unsupportedFormatVersion (v : Int)
  | countingHANodes (e : BackupFileError)
deriving DecidableEq, Repr

/-- `readMetadataJSON`: try the v1 schema first (`v1` is the result of
unmarshalling into `flatMetadata`, `v0` of unmarshalling into
`flatMetadataV0`; unmarshalling-error paths are not modelled); reject
`formatVersion > 1`, take the v1 fields directly when `formatVersion == 1`,
and otherwise treat the document as v0, deriving `haNodes` through
`countHANodes` over the dump files. -/
def readMetadataJSON (v1 : FlatMetadata) (v0 : FlatMetadataV0)
    (controllerNodes : BsonFile Unit) (machines : BsonFile MachineDoc) :
    Except MetadataError BackupMetadata :=
  if v1.formatVersion > 1 then .error (.unsupportedFormatVersion v1.formatVersion)
  else if v1.formatVersion = 1 then .ok (flatToBackupMetadata v1)
  else
    match countHANodes controllerNodes machines v0.environment with
    | .error e => .error (.countingHANodes e)
    | .ok n => .ok (flatV0ToBackupMetadata v0 (n : Int))

/-- C6: for a format-version-0 backup, `metadata()` derives `haNodes` by
exactly the two ordered paths: the document count of `controllerNodes.bson`
whenever that file is readable (regardless of the state of `machines.bson`),
and otherwise, when `controllerNodes.bson` does not exist, the count of
documents of `machines.bson` whose `model-uuid` equals the backup's
controller-model UUID and whose `jobs` contain the manage-model job (2). -/
theorem readMetadataJSON_v0_haNodes (v1 : FlatMetadata) (v0 : FlatMetadataV0)
    (h0 : v1.formatVersion = 0) :
    (∀ (l : List Unit) (machines : BsonFile MachineDoc),
      readMetadataJSON v1 v0 (.docs l) machines =
        .ok (flatV0ToBackupMetadata v0 (l.length : Int))) ∧
    (∀ ms : List MachineDoc,
      readMetadataJSON v1 v0 .missing (.docs ms) =
        .ok (flatV0ToBackupMetadata v0
          (((ms.filter (fun d =>
              d.modelUUID == v0.environment &&
                d.jobs.contains jobManageModel)).length : Nat) : Int))) := by
  constructor
  · intro l machines
    rw [readMetadataJSON, if_neg (by rw [h0]; decide), if_neg (by rw [h0]; decide)]
    rfl
  · intro ms
    rw [readMetadataJSON, if_neg (by rw [h0]; decide), if_neg (by rw [h0]; decide)]
    rfl

theorem readMetadataJSON_v0_haNodes_witness :
    (readMetadataJSON
        { formatVersion := 0, modelUUID := "", version := ⟨2, 8, "beta", 1, 1⟩
          series := "bionic", started := 0, hostname := "h", haNodes := 0 }
        { environment := "e2a6a1e5", version := ⟨2, 8, "beta", 1, 1⟩
          series := "bionic", started := 0, hostname := "h" }
        (.docs [(), (), ()]) .unreadable =
      .ok (flatV0ToBackupMetadata
        { environment := "e2a6a1e5", version := ⟨2, 8, "beta", 1, 1⟩
          series := "bionic", started := 0, hostname := "h" } 3)) ∧
    (readMetadataJSON
        { formatVersion := 0, modelUUID := "", version := ⟨2, 8, "beta", 1, 1⟩
          series := "bionic", started := 0, hostname := "h", haNodes := 0 }
        { environment := "e2a6a1e5", version := ⟨2, 8, "beta", 1, 1⟩
          series := "bionic", started := 0, hostname := "h" }
        .missing
        (.docs [ { modelUUID := "e2a6a1e5", jobs := [1, 2] }
               , { modelUUID := "e2a6a1e5", jobs := [1] }
               , { modelUUID := "other", jobs := [2] } ]) =
      .ok (flatV0ToBackupMetadata
        { environment := "e2a6a1e5", version := ⟨2, 8, "beta", 1, 1⟩
          series := "bionic", started := 0, hostname := "h" } 1)) := by
  constructor
  · exact (readMetadataJSON_v0_haNodes _ _ rfl).1 [(), (), ()] .unreadable
  · exact (readMetadataJSON_v0_haNodes _ _ rfl).2
      [ { modelUUID := "e2a6a1e5", jobs := [1, 2] }
      , { modelUUID := "e2a6a1e5", jobs := [1] }
      , { modelUUID := "other", jobs := [2] } ]

/-! ## The backup reader's temp directory (backup/file.go Open / Close)

The filesystem is the list of existing paths, a path being its list of
segments.  `os.RemoveAll(destDir)` removes every path having `destDir` as a
(segment) prefix, including `destDir` itself.  `extractFiles` creates paths
under the destination directory, so its outcome is modelled as either an
extraction error or the list of created path suffixes relative to the
destination. -/

/-- A filesystem path, as segments. -/
def FsPath : Type := List String

instance : DecidableEq FsPath := by
  unfold FsPath
  infer_instance

instance : Append FsPath := ⟨fun a b => List.append a b⟩

/-- `os.RemoveAll(dir)`: every path under `dir` (including `dir`) is gone. -/
def removeAll (dir : FsPath) (fs : List FsPath) : List FsPath :=
  fs.filter (fun p => !(List.isPrefixOf dir p))

/-- Outcomes of the effectful steps of `backup.Open`: creating the temp
directory under `tempRoot`, extracting the backup archive into it, and
extracting the nested `root.tar` in place.  Extraction outcomes carry the
created paths relative to the temp directory. -/
structure OpenEnv where
  createOk : Bool
  extractBackup : Except String (List FsPath)
  extractRoot : Except String (List FsPath)

/-- `backup.Open(path, tempRoot)` acting on the filesystem `fs0`:
`ioutil.TempDir` creates the fresh directory `destDir`; the deferred cleanup
removes `destDir` recursively whenever `Open` returns an error after creating
it; on success the expanded backup (carrying `destDir`) is returned.  The
result is the final filesystem and `Open`'s return value. -/
def openBackup (fs0 : List FsPath) (destDir : FsPath) (env : OpenEnv) :
    List FsPath × Except String FsPath :=
  if !env.createOk then (fs0, .error "creating temp directory")
  else
    match env.extractBackup with
    | .error e => (removeAll destDir (fs0 ++ [destDir]), .error ("extracting backup: " ++ e))
    | .ok paths1 =>
        match env.extractRoot with
        | .error e =>
            (removeAll destDir ((fs0 ++ [destDir]) ++ paths1.map (fun s => destDir ++ s)),
              .error ("extracting root.tar: " ++ e))
        | .ok paths2 =>
            (((fs0 ++ [destDir]) ++ paths1.map (fun s => destDir ++ s)) ++
                paths2.map (fun s => destDir ++ s),
              .ok destDir)

/-- `expandedBackup.Close()`: remove the temp directory recursively. -/
def closeBackup (dir : FsPath) (fs : List FsPath) : List FsPath :=
  removeAll dir fs

theorem removeAll_outside (dir : FsPath) (fs : List FsPath)
    (h : ∀ p ∈ fs, List.isPrefixOf dir p = false) : removeAll dir fs = fs := by
  apply List.filter_eq_self.mpr
  intro p hp
  rw [h p hp]
  rfl

theorem removeAll_under (dir : FsPath) (suffixes : List FsPath) :
    removeAll dir (suffixes.map (fun s => dir ++ s)) = [] := by
  rw [removeAll, List.filter_eq_nil_iff]
  intro p hp
  rcases List.mem_map.mp hp with ⟨s, -, rfl⟩
  have : List.isPrefixOf dir (dir ++ s) = true := by
    rw [List.isPrefixOf_iff_prefix]
    exact List.prefix_append dir s
  simp [this]

theorem removeAll_append (dir : FsPath) (fs₁ fs₂ : List FsPath) :
    removeAll dir (fs₁ ++ fs₂) = removeAll dir fs₁ ++ removeAll dir fs₂ :=
  List.filter_append _ _

theorem removeAll_self_singleton (dir : FsPath) : removeAll dir [dir] = [] := by
  rw [removeAll, List.filter_eq_nil_iff]
  intro p hp
  rcases List.mem_singleton.mp hp with rfl
  have : List.isPrefixOf p p = true := by
    rw [List.isPrefixOf_iff_prefix]
  simp [this]

/-- C7: the backup reader leaves no residual files under `tempRoot`: when
`Open` fails after creating its fresh temp directory, the deferred cleanup
restores the filesystem exactly; and when `Open` succeeds, `Close` on the
returned backup removes the temp directory and everything extracted into it,
so Open→Close leaves the filesystem as it was. -/
theorem openBackup_leaves_no_residue (fs0 : List FsPath) (destDir : FsPath)
    (env : OpenEnv)
    (hfresh : ∀ p ∈ fs0, List.isPrefixOf destDir p = false) :
    (∀ fs' e, openBackup fs0 destDir env = (fs', .error e) → fs' = fs0) ∧
    (∀ fs' d, openBackup fs0 destDir env = (fs', .ok d) →
      d = destDir ∧ closeBackup d fs' = fs0) := by
  have hclean : ∀ suffixes : List FsPath,
      removeAll destDir ((fs0 ++ [destDir]) ++ suffixes.map (fun s => destDir ++ s)) =
        fs0 := by
    intro suffixes
    rw [removeAll_append, removeAll_append, removeAll_outside destDir fs0 hfresh,
      removeAll_self_singleton, removeAll_under]
    simp
  have hclean0 : removeAll destDir (fs0 ++ [destDir]) = fs0 := by
    rw [removeAll_append, removeAll_outside destDir fs0 hfresh,
      removeAll_self_singleton]
    simp
  constructor
  · intro fs' e h
    rw [openBackup] at h
    by_cases hc : env.createOk = true
    · rw [if_neg (by simp [hc])] at h
      cases hb : env.extractBackup with
      | error eb =>
          rw [hb] at h
          injection h with h₁ h₂
          rw [← h₁, hclean0]
      | ok paths1 =>
          rw [hb] at h
          cases hr : env.extractRoot with
          | error er =>
              rw [hr] at h
              injection h with h₁ h₂
              rw [← h₁, hclean]
          | ok paths2 =>
              rw [hr] at h
              injection h with h₁ h₂
              cases h₂
    · rw [if_pos (by simp [Bool.eq_false_iff.mpr hc])] at h
      injection h with h₁ h₂
      exact h₁.symm
  · intro fs' d h
    rw [openBackup] at h
    by_cases hc : env.createOk = true
    · rw [if_neg (by simp [hc])] at h
      cases hb : env.extractBackup with
      | error eb =>
          rw [hb] at h
          injection h with h₁ h₂
          cases h₂
      | ok paths1 =>
          rw [hb] at h
          cases hr : env.extractRoot with
          | error er =>
              rw [hr] at h
              injection h with h₁ h₂
              cases h₂
          | ok paths2 =>
              rw [hr] at h
              injection h with h₁ h₂
              injection h₂ with h₂
              subst h₂
              refine ⟨rfl, ?_⟩
              rw [← h₁]
              show removeAll destDir _ = fs0
              rw [removeAll_append, hclean, removeAll_under]
              simp
    · rw [if_pos (by simp [Bool.eq_false_iff.mpr hc])] at h
      injection h with h₁ h₂
      cases h₂

theorem openBackup_leaves_no_residue_witness :
    (∀ fs' e, openBackup [["tmp", "other"]] ["tmp", "juju-restore1"]
        { createOk := true, extractBackup := .error "unexpected EOF"
          extractRoot := .ok [] } = (fs', .error e) → fs' = [["tmp", "other"]]) ∧
    (∀ fs' d, openBackup [["tmp", "other"]] ["tmp", "juju-restore1"]
        { createOk := true, extractBackup := .error "unexpected EOF"
          extractRoot := .ok [] } = (fs', .ok d) →
      d = ["tmp", "juju-restore1"] ∧ closeBackup d fs' = [["tmp", "other"]]) :=
  openBackup_leaves_no_residue [["tmp", "other"]] ["tmp", "juju-restore1"]
    { createOk := true, extractBackup := .error "unexpected EOF", extractRoot := .ok [] }
    (by decide)

end JujuRestore
